import Mathlib

/-!
Verification of the gorm-cache repository: a shallow embedding of the
in-memory cache adapter (memory_adapter.go), the key/policy resolver
(config.go, skip_cache context helpers) and the coherence engine's
query callbacks (cache.go), together with theorems settling the
specification claims about them.

Machine integers: Go `time.Time` instants are modelled as `Nat` (the zero
value of `time.Time` is 0, mirroring `IsZero`), `time.Duration` as `Int`,
and `[]byte` as `List UInt8`.  The Go map backing the adapter is modelled
as an association list with map semantics (insert overwrites, lookup finds
the unique live entry, iteration enumerates all entries).
-/

namespace GormCache

/-- Go `[]byte`. -/
abbrev Bytes := List UInt8

/-- memory_adapter.go `cacheItem`: value plus expiration instant
(zero = no expiration). -/
structure CacheItem where
  value : Bytes
  expiration : Nat
  deriving DecidableEq

/-- The adapter's backing `map[string]*cacheItem`, as an association list. -/
abbrev Store := List (String × CacheItem)

/-- Map lookup `m.store[key]`. -/
def storeGet (st : Store) (k : String) : Option CacheItem :=
  (st.find? (fun p => p.1 == k)).map (fun p => p.2)

/-- Map insert `m.store[key] = item` (overwrites any existing entry). -/
def storeSet (st : Store) (k : String) (it : CacheItem) : Store :=
  st.filter (fun p => !(p.1 == k)) ++ [(k, it)]

/-- Map removal `delete(m.store, key)`. -/
def storeErase (st : Store) (k : String) : Store :=
  st.filter (fun p => !(p.1 == k))

/-- memory_adapter.go `MemoryAdapter`.  The `stopCh` channel is modelled by
its closed flag; `cleanUp` mirrors the boolean field. -/
structure MemoryAdapter where
  store : Store
  stopChClosed : Bool
  cleanUp : Bool
  deriving DecidableEq

/-- memory_adapter.go `NewMemoryAdapter` (fresh map, open stop channel). -/
def NewMemoryAdapter : MemoryAdapter :=
  { store := [], stopChClosed := false, cleanUp := true }

/-- The two error values `Get` can produce: `errors.New("key not found")`
and `errors.New("key expired")`. -/
inductive GetErr
  | notFound
  | expired
  deriving DecidableEq

/-- memory_adapter.go `Get` (lines 39-54): lookup, then the expiry test
`!item.expiration.IsZero() && time.Now().After(item.expiration)`.
`now` is the value of `time.Now()` during the call.  The returned adapter
component records the (unchanged) receiver state. -/
def MemoryAdapter.Get (m : MemoryAdapter) (now : Nat) (key : String) :
    Except GetErr Bytes × MemoryAdapter :=
  match storeGet m.store key with
  | none => (Except.error GetErr.notFound, m)
  | some item =>
      if item.expiration ≠ 0 ∧ item.expiration < now then
        (Except.error GetErr.expired, m)
      else
        (Except.ok item.value, m)

/-- memory_adapter.go `Set` (lines 57-71): build the item, set
`expiration = time.Now().Add(ttl)` only when `ttl > 0`, store it.
Always returns a nil error in the source, so the embedding returns
just the new adapter state. -/
def MemoryAdapter.Set (m : MemoryAdapter) (now : Nat) (key : String)
    (value : Bytes) (ttl : Int) : MemoryAdapter :=
  let item : CacheItem :=
    { value := value, expiration := if 0 < ttl then now + ttl.toNat else 0 }
  { m with store := storeSet m.store key item }

/-- memory_adapter.go `Delete` (lines 74-80). -/
def MemoryAdapter.Delete (m : MemoryAdapter) (key : String) : MemoryAdapter :=
  { m with store := storeErase m.store key }

/-- Go `strings.HasPrefix s pre`. -/
def goStartsWith (s pre : List Char) : Bool :=
  pre.isPrefixOf s

/-- Go `strings.TrimSuffix s suf`. -/
def goTrimSuffix (s suf : List Char) : List Char :=
  if suf.isSuffixOf s then s.take (s.length - suf.length) else s

/-- memory_adapter.go `DeletePattern` (lines 83-102): strip a trailing
`*`, collect every key that passes
`strings.HasPrefix(key, prefix) || pattern == "*"`, then delete them.
Collect-then-delete over a map is extensionally the filter below. -/
def MemoryAdapter.DeletePattern (m : MemoryAdapter) (pattern : String) :
    MemoryAdapter :=
  { m with store :=
      m.store.filter (fun p =>
        !(goStartsWith p.1.toList (goTrimSuffix pattern.toList ['*'])
          || pattern == "*")) }

/-- memory_adapter.go `Clear` (lines 105-111). -/
def MemoryAdapter.Clear (m : MemoryAdapter) : MemoryAdapter :=
  { m with store := [] }

/-- Result of running Go statements that can panic. -/
inductive GoPanic
  | closeOfClosedChannel
  deriving DecidableEq

/-- memory_adapter.go `Close` (lines 113-118): sets `cleanUp = false` and
then executes `close(m.stopCh)`.  Go's `close` on an already-closed
channel panics with "close of closed channel"; the embedding surfaces
that panic as an `Except.error`. -/
def MemoryAdapter.Close (m : MemoryAdapter) : Except GoPanic MemoryAdapter :=
  let m1 := { m with cleanUp := false }
  if m1.stopChClosed then Except.error GoPanic.closeOfClosedChannel
  else Except.ok { m1 with stopChClosed := true }

/-- memory_adapter.go `cleanup` (lines 138-148): physically removes every
entry with `!item.expiration.IsZero() && now.After(item.expiration)`. -/
def MemoryAdapter.cleanup (m : MemoryAdapter) (now : Nat) : MemoryAdapter :=
  { m with store :=
      m.store.filter (fun p =>
        !(p.2.expiration != 0 && decide (p.2.expiration < now))) }

/- ### Association-list lemmas for the backing map -/

theorem storeGet_cons (p : String × CacheItem) (st : Store) (k : String) :
    storeGet (p :: st) k = if p.1 == k then some p.2 else storeGet st k := by
  by_cases h : p.1 == k <;> simp [storeGet, List.find?_cons, h]

theorem storeGet_filter_out (st : Store) (c : String → Bool) (k : String)
    (hc : c k = true) :
    storeGet (st.filter (fun p => !(c p.1))) k = none := by
  induction st with
  | nil => rfl
  | cons p rest ih =>
      by_cases hp : p.1 = k
      · have hcp : c p.1 = true := by rw [hp]; exact hc
        simp [List.filter_cons, hcp, ih]
      · cases hcp : c p.1 <;>
          simp [List.filter_cons, hcp, storeGet_cons, hp, ih]

theorem storeGet_filter_keep (st : Store) (c : String → Bool) (k : String)
    (hc : c k = false) :
    storeGet (st.filter (fun p => !(c p.1))) k = storeGet st k := by
  induction st with
  | nil => rfl
  | cons p rest ih =>
      by_cases hp : p.1 = k
      · subst hp
        simp [List.filter_cons, hc, storeGet_cons, ih]
      · cases hcp : c p.1 <;>
          simp [List.filter_cons, hcp, storeGet_cons, hp, ih]

theorem storeGet_storeSet_self (st : Store) (k : String) (it : CacheItem) :
    storeGet (storeSet st k it) k = some it := by
  unfold storeSet
  induction st with
  | nil => simp [storeGet_cons]
  | cons p rest ih =>
      by_cases hp : p.1 = k <;> simp [List.filter_cons, hp, storeGet_cons, ih]

/- ### Claims about the in-memory adapter -/

/-- C4: the claim says calling `Close` twice on the same in-memory adapter
does not panic.  The code's second `Close` executes `close(m.stopCh)` on an
already-closed channel, which panics in Go ("close of closed channel"):
there is no double-stop guard.  This theorem evaluates the code at the
failing input (a fresh adapter closed twice). -/
theorem close_twice_panics :
    NewMemoryAdapter.Close.bind MemoryAdapter.Close =
      Except.error GoPanic.closeOfClosedChannel := rfl

/-- C5: on the in-memory adapter, `Set(k, v, t)` with `t > 0` followed by
`Get(k)` at any instant more than `t` after the `Set` yields the "key
expired" error (the logically-expired half of the spec's NotFound
condition), never the stale value; and `Get` on an absent key yields the
"key not found" error. -/
theorem set_then_get_after_expiry (m : MemoryAdapter) (k : String)
    (v : Bytes) (t : Int) (s g : Nat)
    (ht : 0 < t) (hg : s + t.toNat < g) :
    ((m.Set s k v t).Get g k).1 = Except.error GetErr.expired ∧
    ∀ m2 : MemoryAdapter, storeGet m2.store k = none →
      (m2.Get g k).1 = Except.error GetErr.notFound := by
  constructor
  · have hstore : storeGet (m.Set s k v t).store k =
        some { value := v, expiration := s + t.toNat } := by
      simp [MemoryAdapter.Set, if_pos ht, storeGet_storeSet_self]
    have hcond : (s + t.toNat ≠ 0 ∧ s + t.toNat < g) := by
      constructor <;> omega
    simp only [MemoryAdapter.Get, hstore]
    rw [if_pos hcond]
  · intro m2 h2
    simp [MemoryAdapter.Get, h2]

/-- C5 witness: a concrete run of the expiry theorem (key set at time 0
with ttl 5, read at time 6). -/
theorem set_then_get_after_expiry_witness :
    ((NewMemoryAdapter.Set 0 "k" [9] 5).Get 6 "k").1 =
      Except.error GetErr.expired :=
  (set_then_get_after_expiry NewMemoryAdapter "k" [9] 5 0 6
    (by decide) (by decide)).1

/-- C6: on the in-memory adapter, `Set(k, v, t)` with `t > 0` followed by
`Get(k)` at any instant within `t` returns exactly `v`; and because this
holds for every prior adapter state, a `Set` at `k` overwrites any entry
previously stored at `k` (stated explicitly in the second conjunct). -/
theorem set_then_get_within_ttl (m : MemoryAdapter) (k : String)
    (v : Bytes) (t : Int) (s g : Nat)
    (ht : 0 < t) (hg : g ≤ s + t.toNat) :
    ((m.Set s k v t).Get g k).1 = Except.ok v ∧
    ∀ (v0 : Bytes) (t0 : Int) (s0 : Nat),
      (((m.Set s0 k v0 t0).Set s k v t).Get g k).1 = Except.ok v := by
  have key : ∀ m1 : MemoryAdapter, ((m1.Set s k v t).Get g k).1 = Except.ok v := by
    intro m1
    have hstore : storeGet (m1.Set s k v t).store k =
        some { value := v, expiration := s + t.toNat } := by
      simp [MemoryAdapter.Set, if_pos ht, storeGet_storeSet_self]
    have hcond : ¬(s + t.toNat ≠ 0 ∧ s + t.toNat < g) := by omega
    simp only [MemoryAdapter.Get, hstore]
    rw [if_neg hcond]
  exact ⟨key m, fun v0 t0 s0 => key (m.Set s0 k v0 t0)⟩

/-- C6 witness: a concrete run of the round-trip theorem (overwrite of an
earlier value included). -/
theorem set_then_get_within_ttl_witness :
    (((NewMemoryAdapter.Set 0 "k" [1] 5).Set 2 "k" [2] 5).Get 7 "k").1 =
      Except.ok [2] :=
  (set_then_get_within_ttl NewMemoryAdapter "k" [2] 5 2 7
    (by decide) (by decide)).2 [1] 5 0

/-- Concrete adapter holding `user:1`, `user:2`, `order:1` (no expiry). -/
def scen7 : MemoryAdapter :=
  ((NewMemoryAdapter.Set 0 "user:1" [1] 0).Set 0 "user:2" [2] 0).Set 0
    "order:1" [3] 0

/-- C7: `DeletePattern` on the in-memory adapter removes exactly the keys
that start with the pattern's text before the trailing `*` (a pattern of
exactly `*` trims to the empty text, of which every key is an extension,
so it matches every key) and leaves all other entries retrievable.  The
first conjunct is the general characterization; the rest replay the
spec's example: with `user:1`, `user:2`, `order:1` stored,
`DeletePattern("user:*")` removes the two user keys and `Get("order:1")`
still succeeds. -/
theorem deletePattern_removes_exactly_matches (m : MemoryAdapter)
    (pattern k : String) :
    (storeGet (m.DeletePattern pattern).store k =
      if goStartsWith k.toList (goTrimSuffix pattern.toList ['*']) then none
      else storeGet m.store k) ∧
    ((scen7.DeletePattern "user:*").Get 0 "order:1").1 = Except.ok [3] ∧
    ((scen7.DeletePattern "user:*").Get 0 "user:1").1 =
      Except.error GetErr.notFound ∧
    ((scen7.DeletePattern "user:*").Get 0 "user:2").1 =
      Except.error GetErr.notFound := by
  refine ⟨?_, by rfl, by rfl, by rfl⟩
  have hout := storeGet_filter_out m.store
    (fun x => goStartsWith x.toList (goTrimSuffix pattern.toList ['*'])
      || pattern == "*") k
  have hkeep := storeGet_filter_keep m.store
    (fun x => goStartsWith x.toList (goTrimSuffix pattern.toList ['*'])
      || pattern == "*") k
  by_cases hp : pattern = "*"
  · subst hp
    have htrim : goTrimSuffix "*".toList ['*'] = [] := by decide
    have hsw : goStartsWith k.toList (goTrimSuffix "*".toList ['*']) = true := by
      rw [htrim]; simp [goStartsWith, List.isPrefixOf]
    rw [if_pos hsw]
    exact hout (by rw [hsw]; rfl)
  · have hbeq : (pattern == "*") = false := by
      simp [hp]
    by_cases hsw : goStartsWith k.toList (goTrimSuffix pattern.toList ['*']) = true
    · rw [if_pos hsw]
      exact hout (by rw [hsw, hbeq]; rfl)
    · have hsw2 : goStartsWith k.toList (goTrimSuffix pattern.toList ['*']) = false := by
        rw [Bool.eq_false_iff]; exact hsw
      rw [if_neg (by rw [hsw2]; exact Bool.false_ne_true)]
      exact hkeep (by rw [hsw2, hbeq]; rfl)

/-- C10: `MemoryAdapter.Get` never modifies the backing store: the adapter
state after a `Get` equals the state before it, and in particular every
stored entry (including one the same `Get` observes as expired) is still
present afterwards. -/
theorem get_never_mutates_store (m : MemoryAdapter) (now : Nat) (k : String) :
    (m.Get now k).2 = m ∧
    ∀ (k2 : String) (it : CacheItem), storeGet m.store k2 = some it →
      storeGet ((m.Get now k).2).store k2 = some it := by
  have h1 : (m.Get now k).2 = m := by
    cases hs : storeGet m.store k with
    | none => simp [MemoryAdapter.Get, hs]
    | some item =>
        simp only [MemoryAdapter.Get, hs]
        split <;> rfl
  exact ⟨h1, fun k2 it h2 => by rw [h1]; exact h2⟩

/-- Adapter with one entry that expires at time 1. -/
def expiredAd : MemoryAdapter := NewMemoryAdapter.Set 0 "k" [7] 1

/-- C10 witness: at time 5 the entry of `expiredAd` is logically expired,
yet it is still physically present after the `Get` that observed it. -/
theorem get_never_mutates_store_witness :
    storeGet ((expiredAd.Get 5 "k").2).store "k" =
      some { value := [7], expiration := 1 } :=
  (get_never_mutates_store expiredAd 5 "k").2 "k"
    { value := [7], expiration := 1 } (by decide)

/- ### Key/policy resolver (config.go, skip_cache.go) and coherence engine
(cache.go) -/

/-- A value stored in a Go `context.Context` under the skip-cache key:
either a `bool` or something whose type assertion to `bool` fails. -/
inductive CtxVal
  | boolVal (b : Bool)
  | otherVal
  deriving DecidableEq

/-- The request context as the engine sees it: `skipVal` is the value
returned by `ctx.Value(contextKeySkipCache)` (`none` = no value). -/
structure GoContext where
  skipVal : Option CtxVal
  deriving DecidableEq

/-- skip_cache.go `getSkipCacheFromContext` (lines 22-32): nil context or
absent/non-bool value yields `(false, false)`; a bool value `b` yields
`(b, true)`. -/
def getSkipCacheFromContext : Option GoContext → Bool × Bool
  | none => (false, false)
  | some ctx =>
      match ctx.skipVal with
      | some (CtxVal.boolVal b) => (b, true)
      | some CtxVal.otherVal => (false, false)
      | none => (false, false)

/-- A value in `db.Statement.Settings` (a `sync.Map`): the plugin stores
strings (the remembered cache key) and bools (the skip flag); anything
else fails the type assertions in the source. -/
inductive SettingVal
  | strVal (s : String)
  | boolVal (b : Bool)
  | otherVal
  deriving DecidableEq

/-- `db.Statement.Settings` as an association list. -/
abbrev Settings := List (String × SettingVal)

/-- `Settings.Load`. -/
def settingsLoad (st : Settings) (k : String) : Option SettingVal :=
  (st.find? (fun p => p.1 == k)).map (fun p => p.2)

/-- `Settings.Store` (overwrites). -/
def settingsStore (st : Settings) (k : String) (v : SettingVal) : Settings :=
  st.filter (fun p => !(p.1 == k)) ++ [(k, v)]

/-- The result destination `db.Statement.Dest` after `reflect.Indirect`:
nil, a struct (carrying its payload), a slice (carrying its elements), or
any other kind.  Payloads are abstracted as strings. -/
inductive Dest
  | nilDest
  | structItem (item : String)
  | sliceItems (items : List String)
  | otherKind
  deriving DecidableEq

/-- cache.go `calculateRowsAffected` (lines 243-258): nil destination `->`
0, slice `->` element count, struct `->` 1, any other kind `->` 0. -/
def calculateRowsAffected : Dest → Int
  | Dest.nilDest => 0
  | Dest.sliceItems items => items.length
  | Dest.structItem _ => 1
  | Dest.otherKind => 0

/-- `db.Statement.Schema` when present: the model's type name
(`Schema.ModelType.String()`) and its table (`Schema.Table`). -/
structure GormSchema where
  modelTypeName : String
  table : String
  deriving DecidableEq

/-- `db.Error` as the plugin can observe it: the plugin's internal
`ErrCacheHit` sentinel, or a pre-existing upstream failure. -/
inductive GoError
  | cacheHit (rowsAffected : Int)
  | upstream (msg : String)
  deriving DecidableEq

/-- The per-call `*gorm.DB` state the embedded functions read and write.
`sqlText` is the current `Statement.SQL` contents and `builtSQL` the text
that `callbacks.BuildQuerySQL` would materialize for this statement. -/
structure DBState where
  error : Option GoError
  rowsAffected : Int
  schema : Option GormSchema
  sqlText : String
  builtSQL : String
  vars : List String
  dest : Dest
  settings : Settings
  ctx : Option GoContext
  deriving DecidableEq

/-- serializer.go `Serializer` contract: `marshal` is `Marshal` (`none` =
encode error); `unmarshal data d` is `Unmarshal(data, &d)` returning the
populated destination (`none` = decode error). -/
structure Serializer where
  marshal : Dest → Option Bytes
  unmarshal : Bytes → Dest → Option Dest

/-- config.go `Config`, restricted to the fields the embedded functions
read.  `cacheModels` holds the `fmt.Sprintf("%T", entry)` names of the
configured allow-list entries; `keyPref` is `KeyPrefix`. -/
structure Config where
  ttl : Int
  cacheModels : List String
  keyPref : String
  skipCacheCondition : Option (DBState → Bool)
  cacheKeyGenerator : Option (DBState → String)
  serializer : Serializer

/-- config.go `shouldCacheModel` (lines 62-81): empty allow-list caches
everything; otherwise a nil schema is not cacheable, else the model's type
name is compared by string equality against every configured entry. -/
def Config.shouldCacheModel (c : Config) (db : DBState) : Bool :=
  if c.cacheModels.length = 0 then true
  else
    match db.schema with
    | none => false
    | some sch => c.cacheModels.any (fun entry => entry == sch.modelTypeName)

/-- config.go `shouldSkipCache` (lines 84-103): context value first (only
`ok && skip` short-circuits), then the custom predicate, then the
`"gorm:cache:skip"` setting (only a bool `true` skips). -/
def Config.shouldSkipCache (c : Config) (db : DBState) : Bool :=
  if (getSkipCacheFromContext db.ctx).2 && (getSkipCacheFromContext db.ctx).1 then
    true
  else if (match c.skipCacheCondition with
           | some cond => cond db
           | none => false) then
    true
  else
    match settingsLoad db.settings "gorm:cache:skip" with
    | some (SettingVal.boolVal b) => b
    | _ => false

/-- The `hex(md5(json{SQL, Vars}))` fingerprint step inside
config.go `generateCacheKey` (lines 113-122), abstracted to a concrete
deterministic encoding of the same two inputs (the cryptographic hash
itself is a library call; only its determinism is used by any claim). -/
def fingerprintHex (sql : String) (vars : List String) : String :=
  sql ++ "#" ++ String.intercalate "," vars

/-- config.go `generateCacheKey` (lines 106-130): custom generator output
prefixed verbatim, else `prefix + table(or "unknown") + ":" + hash`. -/
def Config.generateCacheKey (c : Config) (db : DBState) : String :=
  match c.cacheKeyGenerator with
  | some gen => c.keyPref ++ gen db
  | none =>
      c.keyPref ++
        (match db.schema with
         | none => "unknown"
         | some sch => sch.table) ++ ":" ++
        fingerprintHex db.sqlText db.vars

/- ### Claims about the resolver -/

/-- A stand-in serializer used for concrete inputs to the policy
functions (which never consult it). -/
def idSerializer : Serializer :=
  { marshal := fun _ => some [], unmarshal := fun _ d => some d }

/-- Config with an always-true custom skip predicate. -/
def cfgPredTrue : Config :=
  { ttl := 300, cacheModels := [], keyPref := "gorm:cache:",
    skipCacheCondition := some (fun _ => true), cacheKeyGenerator := none,
    serializer := idSerializer }

/-- Call state whose context carries the explicit skip value `false`. -/
def dbCtxFalse : DBState :=
  { error := none, rowsAffected := 0, schema := none, sqlText := "",
    builtSQL := "", vars := [], dest := Dest.nilDest, settings := [],
    ctx := some { skipVal := some (CtxVal.boolVal false) } }

/-- C3 counterexample: the claim says an explicit `false` from the
skip-channel terminates evaluation, so with channel value `false` and a
custom predicate returning `true` caching proceeds
(`shouldSkipCache = false`).  On the code the context check only
short-circuits when the value is `true`; an explicit `false` falls through
to the predicate, which here returns `true`, so the cache is skipped. -/
theorem shouldSkipCache_ctx_false_falls_through :
    cfgPredTrue.shouldSkipCache dbCtxFalse = true := rfl

/-- C3 amended: `shouldSkipCache` short-circuits only on affirmative
signals, in order.  (i) A context SkipSignal of `true` forces skipping
(whatever the predicate says); (ii) a configured predicate returning
`true` forces skipping even when the channel carries an explicit `false`;
(iii) when the channel is not an explicit `true`, the predicate is absent
or returns `false`, and the per-call settings flag is not the bool `true`,
caching proceeds. -/
theorem shouldSkipCache_precedence (c : Config) (db : DBState) :
    (getSkipCacheFromContext db.ctx = (true, true) →
      c.shouldSkipCache db = true) ∧
    (∀ f, c.skipCacheCondition = some f → f db = true →
      c.shouldSkipCache db = true) ∧
    (¬getSkipCacheFromContext db.ctx = (true, true) →
      (∀ f, c.skipCacheCondition = some f → f db = false) →
      settingsLoad db.settings "gorm:cache:skip" ≠
        some (SettingVal.boolVal true) →
      c.shouldSkipCache db = false) := by
  refine ⟨?_, ?_, ?_⟩
  · intro h
    simp [Config.shouldSkipCache, h]
  · intro f hf htrue
    simp [Config.shouldSkipCache, hf, htrue]
  · intro hctx hpred hset
    unfold Config.shouldSkipCache
    have h1 : ((getSkipCacheFromContext db.ctx).2 &&
        (getSkipCacheFromContext db.ctx).1) = false := by
      rcases hpair : getSkipCacheFromContext db.ctx with ⟨a, b⟩
      cases a <;> cases b <;> simp_all
    rw [if_neg (by rw [h1]; exact Bool.false_ne_true)]
    have h2 : (match c.skipCacheCondition with
        | some cond => cond db
        | none => false) = false := by
      cases hc : c.skipCacheCondition with
      | none => rfl
      | some f => exact hpred f hc
    rw [if_neg (by rw [h2]; exact Bool.false_ne_true)]
    cases hload : settingsLoad db.settings "gorm:cache:skip" with
    | none => rfl
    | some v =>
        cases v with
        | strVal s => rfl
        | boolVal b =>
            cases b with
            | false => rfl
            | true => exact absurd hload hset
        | otherVal => rfl

/-- C3 amended witness: conjunct (ii) applied at the concrete
channel-false / predicate-true call: the cache is skipped. -/
theorem shouldSkipCache_precedence_witness :
    cfgPredTrue.shouldSkipCache dbCtxFalse = true :=
  (shouldSkipCache_precedence cfgPredTrue dbCtxFalse).2.1
    (fun _ => true) rfl rfl

/-- Config with an empty model allow-list and no custom hooks. -/
def cfgEmptyModels : Config :=
  { ttl := 300, cacheModels := [], keyPref := "gorm:cache:",
    skipCacheCondition := none, cacheKeyGenerator := none,
    serializer := idSerializer }

/-- Config whose allow-list holds one model type name. -/
def cfgUserModel : Config :=
  { ttl := 300, cacheModels := ["gormcache.TestUser"],
    keyPref := "gorm:cache:", skipCacheCondition := none,
    cacheKeyGenerator := none, serializer := idSerializer }

/-- Call state with no bound schema (raw SQL with no model). -/
def dbNoSchema : DBState :=
  { error := none, rowsAffected := 0, schema := none,
    sqlText := "SELECT 1", builtSQL := "SELECT 1", vars := [],
    dest := Dest.nilDest, settings := [], ctx := none }

/-- C8 counterexample: the claim says `shouldCacheModel` returns `false`
for every call with an absent schema.  On the code the empty-allow-list
check comes first: with `CacheModels` empty and a nil schema the function
returns `true`, so such a query is cached. -/
theorem shouldCacheModel_empty_list_nil_schema :
    cfgEmptyModels.shouldCacheModel dbNoSchema = true := rfl

/-- C8 amended: `shouldCacheModel` returns `true` for every call when the
allow-list is empty (nil schema included); when the allow-list is
non-empty, an absent schema yields `false`, and otherwise the result is
`true` iff the model's type name equals one of the configured entries. -/
theorem shouldCacheModel_cases (c : Config) (db : DBState) :
    (c.cacheModels = [] → c.shouldCacheModel db = true) ∧
    (c.cacheModels ≠ [] → db.schema = none →
      c.shouldCacheModel db = false) ∧
    (∀ sch, c.cacheModels ≠ [] → db.schema = some sch →
      (c.shouldCacheModel db = true ↔
        sch.modelTypeName ∈ c.cacheModels)) := by
  refine ⟨?_, ?_, ?_⟩
  · intro h
    simp [Config.shouldCacheModel, h]
  · intro hne hsch
    have hlen : ¬c.cacheModels.length = 0 := by
      simpa [List.length_eq_zero] using hne
    simp [Config.shouldCacheModel, hlen, hsch]
  · intro sch hne hsch
    have hlen : ¬c.cacheModels.length = 0 := by
      simpa [List.length_eq_zero] using hne
    simp [Config.shouldCacheModel, hlen, hsch, List.any_eq_true,
      beq_iff_eq]

/-- C8 amended witness: with a non-empty allow-list and a nil schema the
model is not cacheable. -/
theorem shouldCacheModel_cases_witness :
    cfgUserModel.shouldCacheModel dbNoSchema = false :=
  (shouldCacheModel_cases cfgUserModel dbNoSchema).2.1
    (by decide) rfl

/- ### Coherence engine (cache.go query callbacks) -/

/-- The per-call system state the callbacks act on: the `*gorm.DB` call
state plus the shared adapter (the in-memory adapter, as in
`DefaultConfig`). -/
structure Sys where
  db : DBState
  ad : MemoryAdapter
  deriving DecidableEq

/-- The `callbacks.BuildQuerySQL(db)` step at cache.go lines 114-116:
materialize the executable text when `Statement.SQL` is still empty. -/
def materializeSQL (db : DBState) : DBState :=
  if db.sqlText.length = 0 then { db with sqlText := db.builtSQL } else db

/-- The miss branch of `queryCallback` (cache.go line 135): remember the
derived key in the settings for the post-execution step. -/
def rememberKey (cfg : Config) (db : DBState) : DBState :=
  { db with
      settings := settingsStore db.settings "gorm:cache:key"
        (SettingVal.strVal (cfg.generateCacheKey db)) }

/-- The hit branch of `queryCallback` (cache.go lines 141-147): populated
destination plus the `ErrCacheHit` sentinel carrying its row count. -/
def markCacheHit (db : DBState) (populated : Dest) : DBState :=
  { db with
      dest := populated
      error := some (GoError.cacheHit (calculateRowsAffected populated)) }

/-- cache.go `queryCallback` (lines 98-150): bail out on a pre-existing
failure, on the skip decision, on a non-cacheable model and on empty
executable text; otherwise derive the key and try the adapter.  A miss
remembers the key in the settings; a hit with a non-nil destination whose
payload deserializes populates the destination and plants the
`ErrCacheHit` sentinel carrying `calculateRowsAffected` of it. -/
def queryCallback (cfg : Config) (now : Nat) (s : Sys) : Sys :=
  if s.db.error ≠ none then s
  else if cfg.shouldSkipCache s.db then s
  else if !cfg.shouldCacheModel s.db then s
  else if (materializeSQL s.db).sqlText == "" then
    { s with db := materializeSQL s.db }
  else
    match (s.ad.Get now (cfg.generateCacheKey (materializeSQL s.db))).1 with
    | Except.error _ =>
        { s with db := rememberKey cfg (materializeSQL s.db) }
    | Except.ok cachedData =>
        if (materializeSQL s.db).dest = Dest.nilDest then
          { s with db := materializeSQL s.db }
        else
          match cfg.serializer.unmarshal cachedData
              (materializeSQL s.db).dest with
          | some populated =>
              { s with db := markCacheHit (materializeSQL s.db) populated }
          | none => { s with db := materializeSQL s.db }

/-- cache.go `afterQueryCallback` (lines 153-208): an `ErrCacheHit`
sentinel restores its row count and is cleared; any other failure stops
the store step; otherwise the skip/model filters are re-checked, the
remembered key is loaded (string type assertion included), an empty
result (`RowsAffected == 0`) is never cached, and a successful marshal is
written through `Adapter.Set` with the configured TTL. -/
def afterQueryCallback (cfg : Config) (now : Nat) (s : Sys) : Sys :=
  match s.db.error with
  | some (GoError.cacheHit n) =>
      { s with db := { s.db with rowsAffected := n, error := none } }
  | some (GoError.upstream _) => s
  | none =>
      if cfg.shouldSkipCache s.db then s
      else if !cfg.shouldCacheModel s.db then s
      else
        match settingsLoad s.db.settings "gorm:cache:key" with
        | some (SettingVal.strVal cacheKey) =>
            if s.db.rowsAffected = 0 then s
            else
              match cfg.serializer.marshal s.db.dest with
              | none => s
              | some data =>
                  { s with ad := s.ad.Set now cacheKey data cfg.ttl }
        | some _ => s
        | none => s

/-- One read through the gorm query pipeline: the before hook, then the
`gorm:query` execution step — which gorm suppresses when `db.Error` is
already set (this is how the `ErrCacheHit` sentinel short-circuits the
source) — then the after hook.  `source` models the source-of-truth
execution writing the destination and the affected-row counter. -/
def runRead (cfg : Config) (now : Nat) (source : DBState → DBState)
    (s : Sys) : Sys :=
  let s1 := queryCallback cfg now s
  let s2 := if s1.db.error = none then { s1 with db := source s1.db } else s1
  afterQueryCallback cfg now s2

/-- A source-of-truth execution returning destination `d` with `n`
affected rows. -/
def execSource (d : Dest) (n : Int) : DBState → DBState :=
  fun db => { db with dest := d, rowsAffected := n }

/- ### Engine lemmas -/

theorem materializeSQL_error (db : DBState) :
    (materializeSQL db).error = db.error := by
  unfold materializeSQL; split <;> rfl

theorem materializeSQL_dest (db : DBState) :
    (materializeSQL db).dest = db.dest := by
  unfold materializeSQL; split <;> rfl

theorem rememberKey_error (cfg : Config) (db : DBState) :
    (rememberKey cfg db).error = db.error := rfl

theorem rememberKey_dest (cfg : Config) (db : DBState) :
    (rememberKey cfg db).dest = db.dest := rfl

/-- On a cache miss at the derived key (and no prior failure), the before
hook leaves the adapter, the failure slot and the destination untouched:
it only remembers the key. -/
theorem queryCallback_miss (cfg : Config) (now : Nat) (s : Sys)
    (herr : s.db.error = none)
    (hmiss : storeGet s.ad.store
      (cfg.generateCacheKey (materializeSQL s.db)) = none) :
    (queryCallback cfg now s).ad = s.ad ∧
    (queryCallback cfg now s).db.error = none ∧
    (queryCallback cfg now s).db.dest = s.db.dest := by
  have hget : (s.ad.Get now (cfg.generateCacheKey (materializeSQL s.db))).1 =
      Except.error GetErr.notFound := by
    simp [MemoryAdapter.Get, hmiss]
  unfold queryCallback
  split
  · exact ⟨rfl, herr, rfl⟩
  · split
    · exact ⟨rfl, herr, rfl⟩
    · split
      · exact ⟨rfl, herr, rfl⟩
      · split
        · exact ⟨rfl, (materializeSQL_error s.db).trans herr,
            materializeSQL_dest s.db⟩
        · split
          · exact ⟨rfl,
              (rememberKey_error cfg (materializeSQL s.db)).trans
                ((materializeSQL_error s.db).trans herr),
              (rememberKey_dest cfg (materializeSQL s.db)).trans
                (materializeSQL_dest s.db)⟩
          · rename_i heq
            rw [hget] at heq
            exact absurd heq (by simp)

/-- When no failure is present, the after hook never changes the call
state (it can only write to the adapter). -/
theorem afterQuery_db_frame (cfg : Config) (now : Nat) (u : Sys)
    (h : u.db.error = none) :
    (afterQueryCallback cfg now u).db = u.db := by
  unfold afterQueryCallback
  repeat' split
  all_goals simp_all

/-- When the result is empty (`RowsAffected == 0`), the after hook never
touches the adapter. -/
theorem afterQuery_ad_frame_zero (cfg : Config) (now : Nat) (u : Sys)
    (h : u.db.rowsAffected = 0) :
    (afterQueryCallback cfg now u).ad = u.ad := by
  unfold afterQueryCallback
  repeat' split
  all_goals simp_all

/- ### Claims about the engine -/

/-- C2: when the call already carries a pre-existing failure (`db.Error`
non-nil) as the before hook runs, the hook takes no action at all — the
whole system state (call state, settings, adapter) is returned unchanged
— and an upstream failure also passes through the after hook unchanged,
so it reaches the caller as it was. -/
theorem prior_failure_untouched (cfg : Config) (now : Nat) (s : Sys)
    (h : s.db.error ≠ none) :
    queryCallback cfg now s = s ∧
    (∀ msg, s.db.error = some (GoError.upstream msg) →
      afterQueryCallback cfg now s = s) := by
  constructor
  · unfold queryCallback
    rw [if_pos h]
  · intro msg hmsg
    simp [afterQueryCallback, hmsg]

/-- Call state carrying an upstream failure. -/
def dbUpstream : DBState :=
  { error := some (GoError.upstream "connection refused"), rowsAffected := 0,
    schema := none, sqlText := "SELECT 1", builtSQL := "SELECT 1",
    vars := [], dest := Dest.nilDest, settings := [], ctx := none }

/-- System state pairing `dbUpstream` with a fresh adapter. -/
def sysUpstream : Sys := { db := dbUpstream, ad := NewMemoryAdapter }

/-- C2 witness: the before hook at a concrete failed call is the
identity. -/
theorem prior_failure_untouched_witness :
    queryCallback cfgEmptyModels 0 sysUpstream = sysUpstream :=
  (prior_failure_untouched cfgEmptyModels 0 sysUpstream (by decide)).1

/-- C1: a read that misses the cache and yields an empty result (zero
rows) stores nothing: the adapter leaves the call exactly as it entered
it.  Consequently the same read issued again (after an insert, so the
source now returns the new data) still misses the unchanged cache,
executes against the source, and hands the caller the newly inserted
items with no failure — never a stale cached empty result. -/
theorem empty_result_never_cached (cfg : Config) (now now2 : Nat) (s : Sys)
    (herr : s.db.error = none)
    (hmiss : storeGet s.ad.store
      (cfg.generateCacheKey (materializeSQL s.db)) = none)
    (newDest : Dest) (n : Int) :
    (runRead cfg now (execSource (Dest.sliceItems []) 0) s).ad = s.ad ∧
    (runRead cfg now2 (execSource newDest n) s).db.dest = newDest ∧
    (runRead cfg now2 (execSource newDest n) s).db.error = none := by
  obtain ⟨had, herr1, -⟩ := queryCallback_miss cfg now s herr hmiss
  obtain ⟨had2, herr2, -⟩ := queryCallback_miss cfg now2 s herr hmiss
  refine ⟨?_, ?_, ?_⟩
  · simp only [runRead]
    rw [if_pos herr1]
    rw [afterQuery_ad_frame_zero]
    · exact had
    · rfl
  · simp only [runRead]
    rw [if_pos herr2]
    rw [afterQuery_db_frame]
    · rfl
    · exact herr2
  · simp only [runRead]
    rw [if_pos herr2]
    rw [afterQuery_db_frame]
    · exact herr2
    · exact herr2

/-- A fresh, healthy read call bound to a model and an empty adapter. -/
def dbFresh : DBState :=
  { error := none, rowsAffected := 0,
    schema := some { modelTypeName := "gormcache.TestUser",
                     table := "test_users" },
    sqlText := "SELECT * FROM test_users",
    builtSQL := "SELECT * FROM test_users",
    vars := [], dest := Dest.sliceItems [], settings := [], ctx := none }

/-- System state pairing `dbFresh` with a fresh (empty) adapter. -/
def sysFresh : Sys := { db := dbFresh, ad := NewMemoryAdapter }

/-- C1 witness: a concrete empty read against an empty adapter leaves the
adapter unchanged. -/
theorem empty_result_never_cached_witness :
    (runRead cfgEmptyModels 0 (execSource (Dest.sliceItems []) 0)
      sysFresh).ad = sysFresh.ad :=
  (empty_result_never_cached cfgEmptyModels 0 1 sysFresh rfl rfl
    (Dest.sliceItems ["New User"]) 1).1

/-- C9: the recovered row count on a cache hit is `calculateRowsAffected`
of the populated destination — 1 for a struct, the element count for a
slice, 0 for nil or anything else — the before hook plants exactly that
count in the `ErrCacheHit` sentinel when a hit deserializes, and the
after hook restores the count onto the outgoing result and clears the
sentinel so the caller observes no failure. -/
theorem cache_hit_row_count (cfg : Config) (now : Nat) (s : Sys) (d : Dest)
    (h : s.db.error = some (GoError.cacheHit (calculateRowsAffected d))) :
    (afterQueryCallback cfg now s).db.rowsAffected =
      calculateRowsAffected d ∧
    (afterQueryCallback cfg now s).db.error = none ∧
    (∀ item, calculateRowsAffected (Dest.structItem item) = 1) ∧
    (∀ items : List String,
      calculateRowsAffected (Dest.sliceItems items) = items.length) ∧
    calculateRowsAffected Dest.nilDest = 0 ∧
    calculateRowsAffected Dest.otherKind = 0 ∧
    (∀ (s2 : Sys) (data : Bytes) (populated : Dest),
      s2.db.error = none →
      cfg.shouldSkipCache s2.db = false →
      cfg.shouldCacheModel s2.db = true →
      ((materializeSQL s2.db).sqlText == "") = false →
      (s2.ad.Get now (cfg.generateCacheKey (materializeSQL s2.db))).1 =
        Except.ok data →
      (materializeSQL s2.db).dest ≠ Dest.nilDest →
      cfg.serializer.unmarshal data (materializeSQL s2.db).dest =
        some populated →
      (queryCallback cfg now s2).db.error =
        some (GoError.cacheHit (calculateRowsAffected populated)) ∧
      (queryCallback cfg now s2).db.dest = populated) := by
  refine ⟨?_, ?_, fun item => rfl, fun items => rfl, rfl, rfl, ?_⟩
  · simp [afterQueryCallback, h]
  · simp [afterQueryCallback, h]
  · intro s2 data populated herr2 hskip hmodel hsql hget hdest hum
    simp [queryCallback, herr2, hskip, hmodel, hsql, hget, hdest, hum,
      markCacheHit]

/-- Call state carrying the cache-hit sentinel for a two-element slice. -/
def sysHit : Sys :=
  { db := { error := some (GoError.cacheHit 2), rowsAffected := 0,
            schema := none, sqlText := "SELECT * FROM test_users",
            builtSQL := "", vars := [],
            dest := Dest.sliceItems ["a", "b"], settings := [],
            ctx := none },
    ad := NewMemoryAdapter }

/-- C9 witness: the after hook at the concrete cache-hit call restores
row count 2 (the element count of the recovered two-item slice). -/
theorem cache_hit_row_count_witness :
    (afterQueryCallback cfgEmptyModels 0 sysHit).db.rowsAffected =
      calculateRowsAffected (Dest.sliceItems ["a", "b"]) :=
  (cache_hit_row_count cfgEmptyModels 0 sysHit
    (Dest.sliceItems ["a", "b"]) rfl).1
